import Mathlib

/-!
Verification of the `transform` package (unmarshal.go): a lenient structural
decoder that converts dynamically typed values (maps, strings, byte slices,
lists) into strongly typed records, with per-field error aggregation.

Modelling conventions:
* Go `interface{}` values decoded from input are the inductive `GValue`.
  Go `float64` is modelled as an exact rational (every float64 is a dyadic
  rational); the string formatting of a float models
  `strconv.FormatFloat(v, 'f', -1, 64)` as the minimal fixed-point decimal
  rendering of that rational, which coincides with the shortest round-trip
  form on the exactly representable decimals that appear in the package.
* A destination struct is a `Record`: an ordered list of fields, each with a
  name, a reflection kind tag, a writability flag (`CanSet`) and a current
  value.  `reflect.Value.FieldByName` is `List.find?` on the name, and
  `Field.Set` is `setField`.
* `encoding/json` is the external decode collaborator; it is abstracted as a
  `Decoder` record of the two decode functions used by the package.
* Go errors are `GoErr`: a structural `fmt.Errorf` error, a decode error
  passed through from the collaborator, or a `multierr` aggregate of
  `FieldError`s.  `multierr.Append` starting from `nil` yields `nil` for an
  empty list of appends, modelled by returning `none` when no field error
  was accumulated.
-/

set_option maxHeartbeats 1000000

namespace Transform

/-- Dynamically typed decoded value (Go `interface{}` after json decoding or
as supplied by the caller): null, bool, int, float64 (as an exact rational),
string, `[]interface{}`, or `map[string]interface{}` (as an association
list, one entry per key). -/
inductive GValue where
  | vNull : GValue
  | vBool : Bool → GValue
  | vInt : Int → GValue
  | vFloat : ℚ → GValue
  | vStr : String → GValue
  | vList : List GValue → GValue
  | vMap : List (String × GValue) → GValue

/-- Numeric value of a decimal digit character. -/
def digitVal (c : Char) : Nat := c.toNat - 48

/-- Decimal digit test, `48 ≤ c ≤ 57` in code points. -/
def isDigitCh (c : Char) : Bool := 48 ≤ c.toNat && c.toNat ≤ 57

/-- Value of a big-endian list of decimal digit characters. -/
def digitsToNat (cs : List Char) : Nat :=
  cs.foldl (fun a c => a * 10 + digitVal c) 0

/-- Decimal digits of `n` (empty for 0), big-endian.  The first argument is
fuel (any fuel at least `n` is enough), keeping the recursion structural so
that terms reduce definitionally. -/
def natDigitsAux : Nat → Nat → List Char
  | 0, _ => []
  | _ + 1, 0 => []
  | fuel + 1, n + 1 =>
    natDigitsAux fuel ((n + 1) / 10) ++ [Nat.digitChar ((n + 1) % 10)]

/-- Decimal rendering of a natural number. -/
def natStr (n : Nat) : String :=
  if n = 0 then "0" else String.mk (natDigitsAux n n)

/-- Model of `strconv.Itoa`: plain decimal rendering of an integer. -/
def itoa (n : Int) : String :=
  if n < 0 then "-" ++ natStr n.natAbs else natStr n.natAbs

/-- Multiplicity of the prime `p` in `n` (fuelled for structural recursion). -/
def padMultAux : Nat → Nat → Nat → Nat
  | 0, _, _ => 0
  | fuel + 1, p, n =>
    if n ≠ 0 ∧ p ∣ n then padMultAux fuel p (n / p) + 1 else 0

/-- Multiplicity of `p` in `n`; fuel `n` suffices since `n` shrinks by `/ p`. -/
def padMult (p n : Nat) : Nat := padMultAux n p n

/-- Left-pad the decimal rendering of `fp` with zeros to `k` digits. -/
def fracPad (k : Nat) (fp : Nat) : String :=
  let s := natStr fp
  String.mk (List.replicate (k - s.length) '0') ++ s

/-- Model of `strconv.FormatFloat(v, 'f', -1, 64)`: minimal fixed-point
decimal rendering (no exponent, no trailing zeros).  `k` is the least
exponent with `q * 10 ^ k` integral, so the last fractional digit is
nonzero; `m` is the integer `q * 10 ^ k`, computed as
`q.num * (10 ^ k / q.den)` since `q.den` divides `10 ^ k`.  Meaningful on
dyadic rationals, which are exactly the finite float64 values. -/
def formatFloatShortest (q : ℚ) : String :=
  let k := max (padMult 2 q.den) (padMult 5 q.den)
  let m := q.num * Int.ofNat (10 ^ k / q.den)
  let sign := if m < 0 then "-" else ""
  let ip := m.natAbs / 10 ^ k
  let fp := m.natAbs % 10 ^ k
  if k = 0 then sign ++ natStr ip
  else sign ++ natStr ip ++ "." ++ fracPad k fp

/-- Strip an optional leading sign; returns (isNegative, remaining chars). -/
def splitSign (cs : List Char) : Bool × List Char :=
  match cs with
  | [] => (false, [])
  | c :: r =>
    if c = '+' then (false, r)
    else if c = '-' then (true, r)
    else (false, c :: r)

/-- Quote a string as Go `strconv` error messages do. -/
def quoteStr (s : String) : String := "\"" ++ s ++ "\""

/-- Model of `strconv.Atoi`: optional sign, then one or more decimal digits,
nothing else; values outside the 64-bit int range are a range error. -/
def parseAtoi (s : String) : Except String Int :=
  let p := splitSign s.toList
  if p.2 = [] ∨ ¬ p.2.all isDigitCh then
    Except.error ("strconv.Atoi: parsing " ++ quoteStr s ++ ": invalid syntax")
  else
    let m := digitsToNat p.2
    if p.1 then
      if m ≤ 2 ^ 63 then Except.ok (-(m : Int))
      else Except.error ("strconv.Atoi: parsing " ++ quoteStr s ++ ": value out of range")
    else
      if m ≤ 2 ^ 63 - 1 then Except.ok (m : Int)
      else Except.error ("strconv.Atoi: parsing " ++ quoteStr s ++ ": value out of range")

/-- Exact multiplication of a rational by `10 ^ e` for an integer exponent
`e`, performed on the numerator or denominator so terms stay reducible. -/
def scalePow10 (mant : ℚ) (e : Int) : ℚ :=
  if 0 ≤ e then Rat.divInt (mant.num * Int.ofNat (10 ^ e.toNat)) (Int.ofNat mant.den)
  else Rat.divInt mant.num (Int.ofNat (mant.den * 10 ^ (-e).toNat))

/-- Exponent suffix of a decimal float literal applied to the mantissa. -/
def expPart (cs : List Char) (mant : ℚ) : Option ℚ :=
  match cs with
  | [] => some mant
  | c :: r =>
    if c = 'e' ∨ c = 'E' then
      let p := splitSign r
      if p.2 = [] ∨ ¬ p.2.all isDigitCh then none
      else
        let e : Int := if p.1 then -(digitsToNat p.2 : Int) else (digitsToNat p.2 : Int)
        some (scalePow10 mant e)
    else none

/-- Model of `strconv.ParseFloat(s, 64)` on finite decimal input: optional
sign, decimal digits with an optional fractional part, and an optional
decimal exponent.  The special float64 shapes with no rational value
(Inf, NaN) and hex floats fall outside the rational model and are rejected;
they do not occur in the behaviour the claims exercise. -/
def parseFloat (s : String) : Except String ℚ :=
  let p := splitSign s.toList
  let ip := p.2.takeWhile isDigitCh
  let rest := p.2.dropWhile isDigitCh
  let q :=
    match rest with
    | '.' :: r => (r.takeWhile isDigitCh, r.dropWhile isDigitCh)
    | _ => ([], rest)
  if ip = [] ∧ q.1 = [] then
    Except.error ("strconv.ParseFloat: parsing " ++ quoteStr s ++ ": invalid syntax")
  else
    let mant : ℚ :=
      Rat.divInt (Int.ofNat (digitsToNat (ip ++ q.1))) (Int.ofNat (10 ^ q.1.length))
    match expPart q.2 (if p.1 then Rat.neg mant else mant) with
    | some x => Except.ok x
    | none =>
      Except.error ("strconv.ParseFloat: parsing " ++ quoteStr s ++ ": invalid syntax")

mutual

/-- Model of `fmt.Sprintf("%v", value)` on a dynamic value. -/
def sprintv : GValue → String
  | .vNull => "<nil>"
  | .vBool b => if b then "true" else "false"
  | .vInt n => itoa n
  | .vFloat q => formatFloatShortest q
  | .vStr s => s
  | .vList l => "[" ++ sprintvList l ++ "]"
  | .vMap m => "map[" ++ sprintvMap m ++ "]"

/-- Elements of a list rendered with `%v`, space separated. -/
def sprintvList : List GValue → String
  | [] => ""
  | [v] => sprintv v
  | v :: rest => sprintv v ++ " " ++ sprintvList rest

/-- Entries of a map rendered as `key:value`, space separated. -/
def sprintvMap : List (String × GValue) → String
  | [] => ""
  | [kv] => kv.1 ++ ":" ++ sprintv kv.2
  | kv :: rest => kv.1 ++ ":" ++ sprintv kv.2 ++ " " ++ sprintvMap rest

end

/-- ConvertString (unmarshal.go): strings pass through, float64 formats in
shortest form, int formats as decimal, anything else renders with `%v`.
Never fails. -/
def ConvertString : GValue → Except String String
  | .vStr s => Except.ok s
  | .vFloat q => Except.ok (formatFloatShortest q)
  | .vInt n => Except.ok (itoa n)
  | v => Except.ok (sprintv v)

/-- ConvertInt (unmarshal.go): strings parse with `strconv.Atoi`, float64
truncates toward zero via Go `int(v)` (modelled by `Int.tdiv` of the
numerator by the denominator), anything else renders with `%v` and parses
that text. -/
def ConvertInt : GValue → Except String Int
  | .vStr s => parseAtoi s
  | .vFloat q => Except.ok (q.num.tdiv q.den)
  | v => parseAtoi (sprintv v)

/-- ConvertFloat64 (unmarshal.go): strings parse with `strconv.ParseFloat`,
int converts exactly, anything else renders with `%v` and parses that
text. -/
def ConvertFloat64 : GValue → Except String ℚ
  | .vStr s => parseFloat s
  | .vInt n => Except.ok (Rat.divInt n 1)
  | v => parseFloat (sprintv v)

/-- ConvertBool (unmarshal.go): only a native bool succeeds; everything else
is a conversion error naming the value. -/
def ConvertBool : GValue → Except String Bool
  | .vBool b => Except.ok b
  | v => Except.error ("cannot convert value: " ++ sprintv v ++ " to bool")

/-- ConvertSlice (unmarshal.go): only a value already shaped as
`[]interface{}` succeeds. -/
def ConvertSlice : GValue → Except String (List GValue)
  | .vList l => Except.ok l
  | v => Except.error ("cannot convert value: " ++ sprintv v ++ " to slice")

/-- Reflection kind of a destination field, as tested by the `switch
field.Kind()` in MapToStruct.  `kUnsupported` stands for every Go kind
outside the five recognized ones (reaching the `default` arm). -/
inductive FieldKind where
  | kString : FieldKind
  | kInt : FieldKind
  | kFloat64 : FieldKind
  | kBool : FieldKind
  | kSlice : FieldKind
  | kUnsupported : FieldKind
deriving DecidableEq

/-- Current value stored in a destination field.  `fOther` is the opaque
value of a field of unsupported kind (never read or written by the code). -/
inductive FieldVal where
  | fStr : String → FieldVal
  | fInt : Int → FieldVal
  | fFloat : ℚ → FieldVal
  | fBool : Bool → FieldVal
  | fSlice : List GValue → FieldVal
  | fOther : FieldVal

/-- One field of a destination struct: its name, reflection kind,
writability (`reflect.Value.CanSet`), and current value. -/
structure Field where
  name : String
  kind : FieldKind
  canSet : Bool
  value : FieldVal

/-- A destination struct is its ordered list of fields. -/
abbrev Record := List Field

/-- FieldError (unmarshal.go lines 12-28): the field name, the underlying
conversion error message, and the `fieldAffected` flag. -/
structure FieldError where
  field : String
  err : String
  fieldAffected : Bool
deriving DecidableEq

/-- Accessor `(*FieldError).IsFieldAffected`. -/
def FieldError.IsFieldAffected (e : FieldError) : Bool := e.fieldAffected

/-- Accessor `(*FieldError).Field`. -/
def FieldError.fieldName (e : FieldError) : String := e.field

/-- Errors returned by the package: a structural `fmt.Errorf` error, a decode
error surfaced from the json collaborator, or a non-empty `multierr`
aggregate of field errors. -/
inductive GoErr where
  | structural : String → GoErr
  | decodeErr : String → GoErr
  | agg : List FieldError → GoErr
deriving DecidableEq

/-- Conversion dispatch of the `switch field.Kind()` in MapToStruct, for the
five recognized kinds (the `default` arm is handled by the caller before
this dispatch). -/
def convKind : FieldKind → GValue → Except String FieldVal
  | .kString, v => (ConvertString v).map FieldVal.fStr
  | .kInt, v => (ConvertInt v).map FieldVal.fInt
  | .kFloat64, v => (ConvertFloat64 v).map FieldVal.fFloat
  | .kBool, v => (ConvertBool v).map FieldVal.fBool
  | .kSlice, v => (ConvertSlice v).map FieldVal.fSlice
  | .kUnsupported, _ => Except.error "unsupported field type"

/-- Model of `field.Set(convertedValue)` through `FieldByName`: overwrite the
value of the first field with the given name. -/
def setField : Record → String → FieldVal → Record
  | [], _, _ => []
  | f :: fs, k, v =>
    if f.name == k then { f with value := v } :: fs else f :: setField fs k v

/-- The `for key, value := range data` loop of MapToStruct (lines 127-168),
over one enumeration of the map.  State: current record, accumulated field
errors, and an optional structural abort message.  Unknown or non-writable
fields are skipped; an unsupported field kind aborts immediately; a failed
conversion appends a FieldError with `fieldAffected: true`; a successful
conversion writes the field. -/
def mapToStructLoop :
    List (String × GValue) → Record → List FieldError →
    Record × List FieldError × Option String
  | [], r, errs => (r, errs, none)
  | (key, value) :: rest, r, errs =>
    match r.find? (fun f => f.name == key) with
    | none => mapToStructLoop rest r errs
    | some f =>
      if f.canSet then
        if f.kind = FieldKind.kUnsupported then
          (r, errs, some "unsupported field type")
        else
          match convKind f.kind value with
          | .error e => mapToStructLoop rest r (errs ++ [⟨key, e, true⟩])
          | .ok cv => mapToStructLoop rest (setField r key cv) errs
      else mapToStructLoop rest r errs

/-- MapToStruct (lines 118-171) on a record destination: run the assignment
loop; a structural abort returns that error alone (discarding accumulated
field errors), otherwise the `multierr` aggregate is `none` exactly when no
field error was accumulated. -/
def MapToStruct (data : List (String × GValue)) (result : Record) :
    Record × Option GoErr :=
  match mapToStructLoop data result [] with
  | (r, _, some msg) => (r, some (GoErr.structural msg))
  | (r, [], none) => (r, none)
  | (r, errs, none) => (r, some (GoErr.agg errs))

/-- Destination of an Unmarshal call: a pointer to a struct, or a pointer to
a slice of structs.  A slice destination carries the zero-valued element
record allocated by `reflect.New` for each item, and the current contents of
the slice. -/
inductive Dest where
  | toStruct : Record → Dest
  | toSlice : Record → List Record → Dest

/-- External json collaborator: `json.Unmarshal` into
`map[string]interface{}` and into `[]map[string]interface{}`. -/
structure Decoder where
  decMap : String → Except String (List (String × GValue))
  decList : String → Except String (List (List (String × GValue)))

/-- MapToStruct including its destination-shape check (lines 119-122): a
non-struct destination is the structural pointer error. -/
def mapToStructDest (data : List (String × GValue)) : Dest → Dest × Option GoErr
  | .toStruct r =>
    match MapToStruct data r with
    | (r2, e) => (Dest.toStruct r2, e)
  | d => (d, some (GoErr.structural "result should be a pointer to a struct"))

/-- Printed name of the dynamic type of a value, for the unsupported-input
error of the Unmarshal dispatcher. -/
def gvTypeName : GValue → String
  | .vNull => "<nil>"
  | .vBool _ => "bool"
  | .vInt _ => "int"
  | .vFloat _ => "float64"
  | .vStr _ => "string"
  | .vList _ => "[]interface \x7b\x7d"
  | .vMap _ => "map[string]interface \x7b\x7d"

/-- The recursive `Unmarshal(item, newItem)` call made by the slice loops,
specialised to the struct element destination `z` that `reflect.New`
allocates: a map delegates to MapToStruct, a string decodes then delegates,
a list fails the pointer-to-slice shape check inside UnmarshalSlice, and any
other shape is the unsupported-data-type error of the dispatcher. -/
def unmarshalItem (D : Decoder) (v : GValue) (z : Record) : Record × Option GoErr :=
  match v with
  | .vMap m => MapToStruct m z
  | .vStr s =>
    match D.decMap s with
    | .error e => (z, some (GoErr.decodeErr e))
    | .ok raw => MapToStruct raw z
  | .vList _ => (z, some (GoErr.structural "result should be a pointer to a slice"))
  | v2 => (z, some (GoErr.structural ("unsupported data type: " ++ gvTypeName v2)))

/-- The `for _, item := range data` loop of UnmarshalSlice (lines 88-95):
convert each item into a fresh zero element; the first failing item aborts
with its error, discarding items converted so far; on success the converted
records are collected in input order. -/
def slLoop (D : Decoder) (z : Record) : List GValue → Except GoErr (List Record)
  | [] => Except.ok []
  | item :: rest =>
    match unmarshalItem D item z with
    | (_, some e) => Except.error e
    | (r2, none) => (slLoop D z rest).map (fun l => r2 :: l)

/-- UnmarshalSlice (lines 82-98): destination must be a pointer to a slice;
on success the new records are appended after the existing contents and the
slice is committed; on the first item error the destination is left
unchanged and only that error is returned. -/
def UnmarshalSlice (D : Decoder) (data : List GValue) : Dest → Dest × Option GoErr
  | .toStruct r =>
    (Dest.toStruct r, some (GoErr.structural "result should be a pointer to a slice"))
  | .toSlice z prior =>
    match slLoop D z data with
    | .error e => (Dest.toSlice z prior, some e)
    | .ok news => (Dest.toSlice z (prior ++ news), none)

/-- UnmarshalSliceOfMaps (lines 100-116): the same loop, with each map item
boxed as an interface value for the recursive Unmarshal call. -/
def UnmarshalSliceOfMaps (D : Decoder) (data : List (List (String × GValue))) :
    Dest → Dest × Option GoErr
  | .toStruct r =>
    (Dest.toStruct r, some (GoErr.structural "result should be a pointer to a slice"))
  | .toSlice z prior =>
    match slLoop D z (data.map GValue.vMap) with
    | .error e => (Dest.toSlice z prior, some e)
    | .ok news => (Dest.toSlice z (prior ++ news), none)

/-- UnmarshalMap (lines 78-80). -/
def UnmarshalMap (data : List (String × GValue)) (d : Dest) : Dest × Option GoErr :=
  mapToStructDest data d

/-- UnmarshalString (lines 69-76): decode as a single map only; a decode
failure is surfaced directly. -/
def UnmarshalString (D : Decoder) (s : String) (d : Dest) : Dest × Option GoErr :=
  match D.decMap s with
  | .error e => (d, some (GoErr.decodeErr e))
  | .ok raw => mapToStructDest raw d

/-- UnmarshalBytes (lines 51-67): try to decode a single map; on failure try
a list of maps and recurse through the dispatcher with that list (boxed as
`[]interface{}`); if both decodes fail, surface the second error. -/
def UnmarshalBytes (D : Decoder) (bs : String) (d : Dest) : Dest × Option GoErr :=
  match D.decMap bs with
  | .ok raw => mapToStructDest raw d
  | .error _ =>
    match D.decList bs with
    | .error e2 => (d, some (GoErr.decodeErr e2))
    | .ok rawSlice => UnmarshalSlice D (rawSlice.map GValue.vMap) d

/-- Input shapes accepted by the Unmarshal dispatcher; `other` carries the
printed type name of an unsupported input. -/
inductive UInput where
  | bytes : String → UInput
  | str : String → UInput
  | map : List (String × GValue) → UInput
  | list : List GValue → UInput
  | listOfMaps : List (List (String × GValue)) → UInput
  | other : String → UInput

/-- Unmarshal (lines 34-49): dispatch on the dynamic shape of the input. -/
def Unmarshal (D : Decoder) (data : UInput) (d : Dest) : Dest × Option GoErr :=
  match data with
  | .bytes bs => UnmarshalBytes D bs d
  | .str s => UnmarshalString D s d
  | .map m => UnmarshalMap m d
  | .list l => UnmarshalSlice D l d
  | .listOfMaps ms => UnmarshalSliceOfMaps D ms d
  | .other tyName => (d, some (GoErr.structural ("unsupported data type: " ++ tyName)))

/-!
Specification-side reference functions.  These restate what one iteration of
the MapToStruct loop does to the record and to the error aggregate, phrased
against a fixed record, so that theorems can characterize the loop as a fold
plus a filter.
-/

/-- Invariant data of a field: its name, kind and writability.  Writing a
field value never changes this profile. -/
def fprof (f : Field) : String × FieldKind × Bool := (f.name, f.kind, f.canSet)

/-- Profiles of all fields of a record, in order. -/
def profile (r : Record) : List (String × FieldKind × Bool) := r.map fprof

/-- Effect of one mapping entry on the record: write the converted value
into the matched writable field when conversion succeeds, otherwise leave
the record unchanged. -/
def writeOf (r : Record) (kv : String × GValue) : Record :=
  match r.find? (fun f => f.name == kv.1) with
  | none => r
  | some f =>
    if f.canSet then
      if f.kind = FieldKind.kUnsupported then r
      else
        match convKind f.kind kv.2 with
        | .error _ => r
        | .ok cv => setField r kv.1 cv
    else r

/-- Field Error contributed by one mapping entry: present exactly when the
entry matches a writable, supported field and the conversion fails; it
carries the matched field name and `fieldAffected: true`. -/
def failOf (r : Record) (kv : String × GValue) : Option FieldError :=
  match r.find? (fun f => f.name == kv.1) with
  | none => none
  | some f =>
    if f.canSet then
      if f.kind = FieldKind.kUnsupported then none
      else
        match convKind f.kind kv.2 with
        | .error e => some ⟨kv.1, e, true⟩
        | .ok _ => none
    else none

/-- Key silently skipped by the assignment loop: no field of that name, or a
matching field that is not writable. -/
def ignoredKey (r : Record) (k : String) : Bool :=
  match r.find? (fun f => f.name == k) with
  | none => true
  | some f => !f.canSet

/-- Key that triggers the structural unsupported-field-type abort: it
matches a writable field whose kind is not one of the five recognized
ones. -/
def abortingKey (r : Record) (k : String) : Bool :=
  match r.find? (fun f => f.name == k) with
  | none => false
  | some f => f.canSet && decide (f.kind = FieldKind.kUnsupported)

/-- Writing a field value preserves every field profile. -/
theorem profile_setField (r : Record) (k : String) (v : FieldVal) :
    profile (setField r k v) = profile r := by
  induction r with
  | nil => rfl
  | cons f fs ih =>
    simp only [setField]
    split
    · simp [profile, fprof]
    · simpa [profile] using ih

/-- Records with equal profiles resolve `FieldByName` to fields with equal
profiles. -/
theorem find?_congr_profile (r1 r2 : Record) (k : String)
    (h : profile r1 = profile r2) :
    (r1.find? (fun f => f.name == k)).map fprof =
      (r2.find? (fun f => f.name == k)).map fprof := by
  induction r1 generalizing r2 with
  | nil =>
    cases r2 with
    | nil => rfl
    | cons g gs => simp [profile] at h
  | cons f fs ih =>
    cases r2 with
    | nil => simp [profile] at h
    | cons g gs =>
      simp only [profile, List.map_cons, List.cons.injEq] at h
      obtain ⟨h1, h2⟩ := h
      have hname : f.name = g.name := congrArg Prod.fst h1
      simp only [List.find?]
      rw [hname]
      cases hk : (g.name == k) with
      | true => simpa using h1
      | false => exact ih gs h2

/-- Writing preserves record length. -/
theorem setField_length (r : Record) (k : String) (v : FieldVal) :
    (setField r k v).length = r.length := by
  induction r with
  | nil => rfl
  | cons f fs ih =>
    simp only [setField]
    split <;> simp [ih]

/-- Writing a differently named field leaves a position unchanged. -/
theorem setField_getElem?_ne (r : Record) (k : String) (v : FieldVal) (i : Nat)
    (h : ∀ f, r[i]? = some f → ¬ f.name = k) :
    (setField r k v)[i]? = r[i]? := by
  induction r generalizing i with
  | nil => rfl
  | cons f fs ih =>
    simp only [setField]
    split
    · next heq =>
      cases i with
      | zero =>
        exact absurd (by simpa using heq) (h f (by simp))
      | succ j => simp
    · cases i with
      | zero => simp
      | succ j =>
        simpa using ih j (fun g hg => h g (by simpa using hg))

/-- Resolving a name on records of equal profile yields fields of equal
name, kind and writability (stated componentwise for rewriting). -/
theorem find?_some_of_profile (r r0 : Record) (k : String) (f : Field)
    (hp : profile r = profile r0) (hr : r.find? (fun x => x.name == k) = some f) :
    ∃ g, r0.find? (fun x => x.name == k) = some g ∧
      g.name = f.name ∧ g.kind = f.kind ∧ g.canSet = f.canSet := by
  have hf := find?_congr_profile r r0 k hp
  rw [hr] at hf
  cases h0 : r0.find? (fun x => x.name == k) with
  | none => rw [h0] at hf; simp at hf
  | some g =>
    rw [h0] at hf
    have hf2 : fprof f = fprof g := by simpa using hf
    have h1 : f.name = g.name := congrArg (fun p => p.1) hf2
    have h2 : f.kind = g.kind := congrArg (fun p => p.2.1) hf2
    have h3 : f.canSet = g.canSet := congrArg (fun p => p.2.2) hf2
    exact ⟨g, rfl, h1.symm, h2.symm, h3.symm⟩

/-- Resolving a name to nothing transfers across equal profiles. -/
theorem find?_none_of_profile (r r0 : Record) (k : String)
    (hp : profile r = profile r0) (hr : r.find? (fun x => x.name == k) = none) :
    r0.find? (fun x => x.name == k) = none := by
  have hf := find?_congr_profile r r0 k hp
  rw [hr] at hf
  cases h0 : r0.find? (fun x => x.name == k) with
  | none => rfl
  | some g => rw [h0] at hf; simp at hf

/-- Characterization of the assignment loop on a record without unsupported
field kinds: it never aborts, the final record is the fold of the per-entry
writes, and the aggregate appends exactly one FieldError per failing entry,
where failure is judged against any record of the same profile. -/
theorem mapToStructLoop_no_unsupported (data : List (String × GValue))
    (r r0 : Record) (errs : List FieldError) (hp : profile r = profile r0)
    (h : ∀ f ∈ r0, f.kind ≠ FieldKind.kUnsupported) :
    mapToStructLoop data r errs =
      (data.foldl writeOf r, errs ++ data.filterMap (failOf r0), none) := by
  induction data generalizing r errs with
  | nil =>
    simp only [List.foldl_nil, List.filterMap_nil, List.append_nil]
    rfl
  | cons kv rest ih =>
    obtain ⟨key, value⟩ := kv
    cases hr : r.find? (fun f => f.name == key) with
    | none =>
      have hr0 := find?_none_of_profile r r0 key hp hr
      have hw : writeOf r (key, value) = r := by simp [writeOf, hr]
      have hff : failOf r0 (key, value) = none := by simp [failOf, hr0]
      have hloop : mapToStructLoop ((key, value) :: rest) r errs =
          mapToStructLoop rest r errs := by
        simp [mapToStructLoop, hr]
      rw [hloop, List.foldl_cons, hw, List.filterMap_cons_none hff]
      exact ih r errs hp
    | some f =>
      obtain ⟨g, hg0, hgn, hgk, hgc⟩ := find?_some_of_profile r r0 key f hp hr
      have hkind_ne : ¬ f.kind = FieldKind.kUnsupported := by
        rw [← hgk]; exact h g (List.mem_of_find?_eq_some hg0)
      by_cases hcs : f.canSet = true
      · cases hcv : convKind f.kind value with
        | error e =>
          have hw : writeOf r (key, value) = r := by
            simp [writeOf, hr, hcs, hkind_ne, hcv]
          have hff : failOf r0 (key, value) = some ⟨key, e, true⟩ := by
            simp [failOf, hg0, hgk, hgc, hcs, hkind_ne, hcv]
          have hloop : mapToStructLoop ((key, value) :: rest) r errs =
              mapToStructLoop rest r (errs ++ [⟨key, e, true⟩]) := by
            simp [mapToStructLoop, hr, hcs, hkind_ne, hcv]
          rw [hloop, List.foldl_cons, hw, List.filterMap_cons_some hff,
            show errs ++ (⟨key, e, true⟩ : FieldError) :: List.filterMap (failOf r0) rest
              = (errs ++ [(⟨key, e, true⟩ : FieldError)]) ++ List.filterMap (failOf r0) rest
              from by simp]
          exact ih r (errs ++ [⟨key, e, true⟩]) hp
        | ok cv =>
          have hw : writeOf r (key, value) = setField r key cv := by
            simp [writeOf, hr, hcs, hkind_ne, hcv]
          have hff : failOf r0 (key, value) = none := by
            simp [failOf, hg0, hgk, hgc, hcs, hkind_ne, hcv]
          have hloop : mapToStructLoop ((key, value) :: rest) r errs =
              mapToStructLoop rest (setField r key cv) errs := by
            simp [mapToStructLoop, hr, hcs, hkind_ne, hcv]
          rw [hloop, List.foldl_cons, hw, List.filterMap_cons_none hff]
          exact ih (setField r key cv) errs (by rw [profile_setField]; exact hp)
      · have hw : writeOf r (key, value) = r := by simp [writeOf, hr, hcs]
        have hff : failOf r0 (key, value) = none := by simp [failOf, hg0, hgc, hcs]
        have hloop : mapToStructLoop ((key, value) :: rest) r errs =
            mapToStructLoop rest r errs := by
          simp [mapToStructLoop, hr, hcs]
        rw [hloop, List.foldl_cons, hw, List.filterMap_cons_none hff]
        exact ih r errs hp

/-- Record component of MapToStruct equals the record state of the loop,
whatever the outcome. -/
theorem MapToStruct_fst (data : List (String × GValue)) (r : Record) :
    (MapToStruct data r).1 = (mapToStructLoop data r []).1 := by
  unfold MapToStruct
  rcases h : mapToStructLoop data r [] with ⟨r2, errs2, s⟩
  cases s with
  | none => cases errs2 <;> simp
  | some msg => simp

/-- Zero-valued Car record of the test suite: five writable fields of
supported kinds. -/
def carRecord : Record :=
  [⟨"Brand", FieldKind.kString, true, FieldVal.fStr ""⟩,
   ⟨"Year", FieldKind.kInt, true, FieldVal.fInt 0⟩,
   ⟨"Used", FieldKind.kBool, true, FieldVal.fBool false⟩,
   ⟨"Price", FieldKind.kFloat64, true, FieldVal.fFloat 0⟩,
   ⟨"Document", FieldKind.kString, true, FieldVal.fStr ""⟩]

/-- Mapping with non-numeric text in the Year and Price fields and
well-typed values elsewhere. -/
def carDataBad : List (String × GValue) :=
  [("Brand", GValue.vStr "Toyota"), ("Year", GValue.vStr "A"),
   ("Used", GValue.vBool true), ("Price", GValue.vStr "B"),
   ("Document", GValue.vStr "123")]

/-- C1: for every mapping and every destination record whose fields all have
supported kinds, MapToStruct processes every key: the final record is the
fold of the per-entry writes (matching writable fields with a successful
conversion are set, failing ones are left unwritten), the aggregate holds
exactly one FieldError per failing entry carrying that field name, and the
returned error is nil if and only if no field conversion failed. -/
theorem mapToStruct_partial_failure_contract (data : List (String × GValue))
    (r : Record) (h : ∀ f ∈ r, f.kind ≠ FieldKind.kUnsupported) :
    MapToStruct data r =
      (data.foldl writeOf r,
       if data.filterMap (failOf r) = [] then none
       else some (GoErr.agg (data.filterMap (failOf r)))) := by
  have hl := mapToStructLoop_no_unsupported data r r [] rfl h
  unfold MapToStruct
  rw [hl]
  cases hfm : data.filterMap (failOf r) with
  | nil => simp
  | cons a l => simp

/-- Witness for C1 at the Year/Price-malformed mapping of the test suite. -/
theorem mapToStruct_partial_failure_contract_witness :
    (∀ f ∈ carRecord, f.kind ≠ FieldKind.kUnsupported) ∧
    MapToStruct carDataBad carRecord =
      (carDataBad.foldl writeOf carRecord,
       if carDataBad.filterMap (failOf carRecord) = [] then none
       else some (GoErr.agg (carDataBad.filterMap (failOf carRecord)))) :=
  ⟨by decide, mapToStruct_partial_failure_contract carDataBad carRecord (by decide)⟩

/-- Entries whose key is ignored (no matching field, or a non-writable one)
can be removed anywhere in the mapping without changing the loop result. -/
theorem mapToStructLoop_skip (l1 : List (String × GValue)) (k : String)
    (v : GValue) (l2 : List (String × GValue)) (r r0 : Record)
    (errs : List FieldError) (hp : profile r = profile r0)
    (hk : ignoredKey r0 k = true) :
    mapToStructLoop (l1 ++ (k, v) :: l2) r errs =
      mapToStructLoop (l1 ++ l2) r errs := by
  induction l1 generalizing r errs with
  | nil =>
    simp only [List.nil_append]
    cases hr : r.find? (fun f => f.name == k) with
    | none => simp [mapToStructLoop, hr]
    | some f =>
      obtain ⟨g, hg0, hgn, hgk, hgc⟩ := find?_some_of_profile r r0 k f hp hr
      have hgcs : g.canSet = false := by
        unfold ignoredKey at hk
        rw [hg0] at hk
        simpa using hk
      have hcs : f.canSet = false := by rw [← hgc]; exact hgcs
      simp [mapToStructLoop, hr, hcs]
  | cons kv rest ih =>
    obtain ⟨key, value⟩ := kv
    simp only [List.cons_append]
    cases hr : r.find? (fun f => f.name == key) with
    | none =>
      have e1 : mapToStructLoop ((key, value) :: (rest ++ (k, v) :: l2)) r errs =
          mapToStructLoop (rest ++ (k, v) :: l2) r errs := by
        simp [mapToStructLoop, hr]
      have e2 : mapToStructLoop ((key, value) :: (rest ++ l2)) r errs =
          mapToStructLoop (rest ++ l2) r errs := by
        simp [mapToStructLoop, hr]
      rw [e1, e2]
      exact ih r errs hp
    | some f =>
      by_cases hcs : f.canSet = true
      · by_cases hku : f.kind = FieldKind.kUnsupported
        · simp [mapToStructLoop, hr, hcs, hku]
        · cases hcv : convKind f.kind value with
          | error e =>
            have e1 : mapToStructLoop ((key, value) :: (rest ++ (k, v) :: l2)) r errs =
                mapToStructLoop (rest ++ (k, v) :: l2) r (errs ++ [⟨key, e, true⟩]) := by
              simp [mapToStructLoop, hr, hcs, hku, hcv]
            have e2 : mapToStructLoop ((key, value) :: (rest ++ l2)) r errs =
                mapToStructLoop (rest ++ l2) r (errs ++ [⟨key, e, true⟩]) := by
              simp [mapToStructLoop, hr, hcs, hku, hcv]
            rw [e1, e2]
            exact ih r (errs ++ [⟨key, e, true⟩]) hp
          | ok cv =>
            have e1 : mapToStructLoop ((key, value) :: (rest ++ (k, v) :: l2)) r errs =
                mapToStructLoop (rest ++ (k, v) :: l2) (setField r key cv) errs := by
              simp [mapToStructLoop, hr, hcs, hku, hcv]
            have e2 : mapToStructLoop ((key, value) :: (rest ++ l2)) r errs =
                mapToStructLoop (rest ++ l2) (setField r key cv) errs := by
              simp [mapToStructLoop, hr, hcs, hku, hcv]
            rw [e1, e2]
            exact ih (setField r key cv) errs (by rw [profile_setField]; exact hp)
      · have e1 : mapToStructLoop ((key, value) :: (rest ++ (k, v) :: l2)) r errs =
            mapToStructLoop (rest ++ (k, v) :: l2) r errs := by
          simp [mapToStructLoop, hr, hcs]
        have e2 : mapToStructLoop ((key, value) :: (rest ++ l2)) r errs =
            mapToStructLoop (rest ++ l2) r errs := by
          simp [mapToStructLoop, hr, hcs]
        rw [e1, e2]
        exact ih r errs hp

/-- Fields whose name never occurs among the mapping keys keep their value
through the loop. -/
theorem mapToStructLoop_preserves (data : List (String × GValue)) (r : Record)
    (errs : List FieldError) (i : Nat) (f : Field) (hf : r[i]? = some f)
    (h : ∀ kv ∈ data, kv.1 ≠ f.name) :
    ((mapToStructLoop data r errs).1)[i]? = some f := by
  induction data generalizing r errs with
  | nil => exact hf
  | cons kv rest ih =>
    obtain ⟨key, value⟩ := kv
    have hkey : key ≠ f.name := h (key, value) (by simp)
    have hrest : ∀ kv ∈ rest, kv.1 ≠ f.name := fun kv hm => h kv (by simp [hm])
    cases hr : r.find? (fun g => g.name == key) with
    | none =>
      have e1 : mapToStructLoop ((key, value) :: rest) r errs =
          mapToStructLoop rest r errs := by
        simp [mapToStructLoop, hr]
      rw [e1]
      exact ih r errs hf hrest
    | some g =>
      by_cases hcs : g.canSet = true
      · by_cases hku : g.kind = FieldKind.kUnsupported
        · have e1 : mapToStructLoop ((key, value) :: rest) r errs =
              (r, errs, some "unsupported field type") := by
            simp [mapToStructLoop, hr, hcs, hku]
          rw [e1]
          exact hf
        · cases hcv : convKind g.kind value with
          | error e =>
            have e1 : mapToStructLoop ((key, value) :: rest) r errs =
                mapToStructLoop rest r (errs ++ [⟨key, e, true⟩]) := by
              simp [mapToStructLoop, hr, hcs, hku, hcv]
            rw [e1]
            exact ih r (errs ++ [⟨key, e, true⟩]) hf hrest
          | ok cv =>
            have hset : (setField r key cv)[i]? = some f := by
              rw [setField_getElem?_ne r key cv i]
              · exact hf
              · intro f2 hf2
                have hf2f : f2 = f := by
                  rw [hf] at hf2
                  exact (Option.some.inj hf2).symm
                rw [hf2f]
                exact fun hn => hkey hn.symm
            have e1 : mapToStructLoop ((key, value) :: rest) r errs =
                mapToStructLoop rest (setField r key cv) errs := by
              simp [mapToStructLoop, hr, hcs, hku, hcv]
            rw [e1]
            exact ih (setField r key cv) errs hset hrest
      · have e1 : mapToStructLoop ((key, value) :: rest) r errs =
            mapToStructLoop rest r errs := by
          simp [mapToStructLoop, hr, hcs]
        rw [e1]
        exact ih r errs hf hrest

/-- C7: MapToStruct writes only fields whose name exactly matches a mapping
key with a successful conversion: an entry whose key matches no field or a
non-writable field can be dropped anywhere without any effect on the result
(no error, no change to any field), and a destination field whose name is
absent from the mapping keeps its existing value, without error. -/
theorem mapToStruct_key_matching_tolerance :
    (∀ (l1 l2 : List (String × GValue)) (k : String) (v : GValue) (r : Record),
        ignoredKey r k = true →
        MapToStruct (l1 ++ (k, v) :: l2) r = MapToStruct (l1 ++ l2) r) ∧
    (∀ (data : List (String × GValue)) (r : Record) (i : Nat) (f : Field),
        r[i]? = some f → (∀ kv ∈ data, kv.1 ≠ f.name) →
        ((MapToStruct data r).1)[i]? = some f) := by
  constructor
  · intro l1 l2 k v r hk
    unfold MapToStruct
    rw [mapToStructLoop_skip l1 k v l2 r r [] rfl hk]
  · intro data r i f hf h
    rw [MapToStruct_fst]
    exact mapToStructLoop_preserves data r [] i f hf h

/-- Witness for C7: an unknown Additional key is dropped without effect, and
the Year field keeps its zero value when absent from the mapping. -/
theorem mapToStruct_key_matching_tolerance_witness :
    (ignoredKey carRecord "Additional" = true ∧
      MapToStruct ([("Brand", GValue.vStr "Toyota")] ++
          ("Additional", GValue.vInt 123) :: [("Document", GValue.vStr "123")])
          carRecord =
        MapToStruct ([("Brand", GValue.vStr "Toyota")] ++
          [("Document", GValue.vStr "123")]) carRecord) ∧
    ((MapToStruct [("Brand", GValue.vStr "Toyota")] carRecord).1)[1]? =
      some ⟨"Year", FieldKind.kInt, true, FieldVal.fInt 0⟩ :=
  ⟨⟨by decide,
    mapToStruct_key_matching_tolerance.1 _ _ _ _ _ (by decide)⟩,
   mapToStruct_key_matching_tolerance.2 _ _ 1 _ (by rfl) (by decide)⟩

/-- Presence of a key matching a writable unsupported-kind field forces the
loop into the structural abort. -/
theorem mapToStructLoop_abort (data : List (String × GValue)) (r r0 : Record)
    (errs : List FieldError) (hp : profile r = profile r0)
    (h : ∃ kv ∈ data, abortingKey r0 kv.1 = true) :
    (mapToStructLoop data r errs).2.2 = some "unsupported field type" := by
  induction data generalizing r errs with
  | nil => simp at h
  | cons kv rest ih =>
    obtain ⟨key, value⟩ := kv
    by_cases hab : abortingKey r0 key = true
    · unfold abortingKey at hab
      cases hg0 : r0.find? (fun f => f.name == key) with
      | none => rw [hg0] at hab; simp at hab
      | some g =>
        rw [hg0] at hab
        simp only [Bool.and_eq_true, decide_eq_true_eq] at hab
        obtain ⟨f, hr, hfn, hfk, hfc⟩ :=
          find?_some_of_profile r0 r key g hp.symm hg0
        have e1 : mapToStructLoop ((key, value) :: rest) r errs =
            (r, errs, some "unsupported field type") := by
          simp [mapToStructLoop, hr, hfc, hab.1, hfk, hab.2]
        rw [e1]
    · have h2 : ∃ kv ∈ rest, abortingKey r0 kv.1 = true := by
        rcases h with ⟨kv2, hm, hk2⟩
        rcases List.mem_cons.mp hm with heq | hm2
        · rw [heq] at hk2
          exact absurd hk2 hab
        · exact ⟨kv2, hm2, hk2⟩
      cases hr : r.find? (fun f => f.name == key) with
      | none =>
        have e1 : mapToStructLoop ((key, value) :: rest) r errs =
            mapToStructLoop rest r errs := by
          simp [mapToStructLoop, hr]
        rw [e1]
        exact ih r errs hp h2
      | some f =>
        obtain ⟨g, hg0, hgn, hgk, hgc⟩ := find?_some_of_profile r r0 key f hp hr
        have hnot : ¬ (f.canSet = true ∧ f.kind = FieldKind.kUnsupported) := by
          rintro ⟨hc, hk2⟩
          apply hab
          unfold abortingKey
          rw [hg0]
          simp [hgc, hgk, hc, hk2]
        by_cases hcs : f.canSet = true
        · have hku : ¬ f.kind = FieldKind.kUnsupported := fun hk2 => hnot ⟨hcs, hk2⟩
          cases hcv : convKind f.kind value with
          | error e =>
            have e1 : mapToStructLoop ((key, value) :: rest) r errs =
                mapToStructLoop rest r (errs ++ [⟨key, e, true⟩]) := by
              simp [mapToStructLoop, hr, hcs, hku, hcv]
            rw [e1]
            exact ih r (errs ++ [⟨key, e, true⟩]) hp h2
          | ok cv =>
            have e1 : mapToStructLoop ((key, value) :: rest) r errs =
                mapToStructLoop rest (setField r key cv) errs := by
              simp [mapToStructLoop, hr, hcs, hku, hcv]
            rw [e1]
            exact ih (setField r key cv) errs
              (by rw [profile_setField]; exact hp) h2
        · have e1 : mapToStructLoop ((key, value) :: rest) r errs =
              mapToStructLoop rest r errs := by
            simp [mapToStructLoop, hr, hcs]
          rw [e1]
          exact ih r errs hp h2

/-- C8: if the mapping holds a key matching a writable field whose kind is
not one of the five recognized ones, MapToStruct aborts with the structural
unsupported-field-type error; the result is never a FieldError aggregate, so
this error is never aggregated with Field Errors. -/
theorem mapToStruct_unsupported_field_structural (data : List (String × GValue))
    (r : Record) (h : ∃ kv ∈ data, abortingKey r kv.1 = true) :
    (MapToStruct data r).2 = some (GoErr.structural "unsupported field type") := by
  have hl := mapToStructLoop_abort data r r [] rfl h
  unfold MapToStruct
  rcases hm : mapToStructLoop data r [] with ⟨r2, errs2, s⟩
  rw [hm] at hl
  simp only at hl
  subst hl
  simp

/-- Record with a writable field of unsupported kind after a supported
one. -/
def gadgetRecord : Record :=
  [⟨"Name", FieldKind.kString, true, FieldVal.fStr ""⟩,
   ⟨"Extra", FieldKind.kUnsupported, true, FieldVal.fOther⟩]

/-- Witness for C8 on a record with an unsupported Extra field. -/
theorem mapToStruct_unsupported_field_structural_witness :
    (∃ kv ∈ [("Name", GValue.vStr "x"), ("Extra", GValue.vInt 1)],
        abortingKey gadgetRecord kv.1 = true) ∧
    (MapToStruct [("Name", GValue.vStr "x"), ("Extra", GValue.vInt 1)]
        gadgetRecord).2 =
      some (GoErr.structural "unsupported field type") :=
  ⟨by decide, mapToStruct_unsupported_field_structural _ _ (by decide)⟩

/-- State of the loop at the structural abort: the record holds all writes
of the prefix before the aborting key, and only the structural message is
reported. -/
theorem mapToStructLoop_abort_at (l1 : List (String × GValue)) (k : String)
    (v : GValue) (l2 : List (String × GValue)) (r r0 : Record)
    (errs : List FieldError) (hp : profile r = profile r0)
    (h1 : ∀ kv ∈ l1, abortingKey r0 kv.1 = false)
    (hk : abortingKey r0 k = true) :
    ∃ errs2, mapToStructLoop (l1 ++ (k, v) :: l2) r errs =
      (l1.foldl writeOf r, errs2, some "unsupported field type") := by
  induction l1 generalizing r errs with
  | nil =>
    unfold abortingKey at hk
    cases hg0 : r0.find? (fun f => f.name == k) with
    | none => rw [hg0] at hk; simp at hk
    | some g =>
      rw [hg0] at hk
      simp only [Bool.and_eq_true, decide_eq_true_eq] at hk
      obtain ⟨f, hr, hfn, hfk, hfc⟩ := find?_some_of_profile r0 r k g hp.symm hg0
      refine ⟨errs, ?_⟩
      simp [mapToStructLoop, hr, hfc, hk.1, hfk, hk.2]
  | cons kv rest ih =>
    obtain ⟨key, value⟩ := kv
    have habf : abortingKey r0 key = false := h1 (key, value) (by simp)
    have h1rest : ∀ kv ∈ rest, abortingKey r0 kv.1 = false :=
      fun kv hm => h1 kv (by simp [hm])
    have hab : ¬ abortingKey r0 key = true := by rw [habf]; simp
    simp only [List.cons_append, List.foldl_cons]
    cases hr : r.find? (fun f => f.name == key) with
    | none =>
      have hw : writeOf r (key, value) = r := by simp [writeOf, hr]
      have e1 : mapToStructLoop ((key, value) :: (rest ++ (k, v) :: l2)) r errs =
          mapToStructLoop (rest ++ (k, v) :: l2) r errs := by
        simp [mapToStructLoop, hr]
      rw [e1, hw]
      exact ih r errs hp h1rest
    | some f =>
      obtain ⟨g, hg0, hgn, hgk, hgc⟩ := find?_some_of_profile r r0 key f hp hr
      have hnot : ¬ (f.canSet = true ∧ f.kind = FieldKind.kUnsupported) := by
        rintro ⟨hc, hk2⟩
        apply hab
        unfold abortingKey
        rw [hg0]
        simp [hgc, hgk, hc, hk2]
      by_cases hcs : f.canSet = true
      · have hku : ¬ f.kind = FieldKind.kUnsupported := fun hk2 => hnot ⟨hcs, hk2⟩
        cases hcv : convKind f.kind value with
        | error e =>
          have hw : writeOf r (key, value) = r := by
            simp [writeOf, hr, hcs, hku, hcv]
          have e1 : mapToStructLoop ((key, value) :: (rest ++ (k, v) :: l2)) r errs =
              mapToStructLoop (rest ++ (k, v) :: l2) r (errs ++ [⟨key, e, true⟩]) := by
            simp [mapToStructLoop, hr, hcs, hku, hcv]
          rw [e1, hw]
          exact ih r (errs ++ [⟨key, e, true⟩]) hp h1rest
        | ok cv =>
          have hw : writeOf r (key, value) = setField r key cv := by
            simp [writeOf, hr, hcs, hku, hcv]
          have e1 : mapToStructLoop ((key, value) :: (rest ++ (k, v) :: l2)) r errs =
              mapToStructLoop (rest ++ (k, v) :: l2) (setField r key cv) errs := by
            simp [mapToStructLoop, hr, hcs, hku, hcv]
          rw [e1, hw]
          exact ih (setField r key cv) errs
            (by rw [profile_setField]; exact hp) h1rest
      · have hw : writeOf r (key, value) = r := by simp [writeOf, hr, hcs]
        have e1 : mapToStructLoop ((key, value) :: (rest ++ (k, v) :: l2)) r errs =
            mapToStructLoop (rest ++ (k, v) :: l2) r errs := by
          simp [mapToStructLoop, hr, hcs]
        rw [e1, hw]
        exact ih r errs hp h1rest

/-- C10: when MapToStruct aborts on a key matching a writable
unsupported-kind field, FieldErrors accumulated for earlier keys are
discarded (the returned error is only the structural one), and fields
already written stay written: the returned record is the fold of the writes
over the prefix processed before the abort. -/
theorem mapToStruct_abort_discards_earlier (l1 : List (String × GValue))
    (k : String) (v : GValue) (l2 : List (String × GValue)) (r : Record)
    (h1 : ∀ kv ∈ l1, abortingKey r kv.1 = false)
    (hk : abortingKey r k = true) :
    MapToStruct (l1 ++ (k, v) :: l2) r =
      (l1.foldl writeOf r, some (GoErr.structural "unsupported field type")) := by
  obtain ⟨errs2, hl⟩ := mapToStructLoop_abort_at l1 k v l2 r r [] rfl h1 hk
  unfold MapToStruct
  rw [hl]
  cases errs2 <;> rfl

/-- Witness for C10: a failing Year-like key before the aborting Extra key;
the prefix write to Name survives and only the structural error remains. -/
theorem mapToStruct_abort_discards_earlier_witness :
    (∀ kv ∈ [("Name", GValue.vStr "x")], abortingKey gadgetRecord kv.1 = false) ∧
    abortingKey gadgetRecord "Extra" = true ∧
    MapToStruct ([("Name", GValue.vStr "x")] ++ ("Extra", GValue.vInt 1) :: [])
        gadgetRecord =
      ([("Name", GValue.vStr "x")].foldl writeOf gadgetRecord,
       some (GoErr.structural "unsupported field type")) :=
  ⟨by decide, by decide,
   mapToStruct_abort_discards_earlier _ _ _ _ _ (by decide) (by decide)⟩

/-- Every FieldError appended by the loop carries fieldAffected true. -/
theorem mapToStructLoop_affected (data : List (String × GValue)) (r : Record)
    (errs : List FieldError) (h : ∀ e ∈ errs, e.fieldAffected = true) :
    ∀ e ∈ (mapToStructLoop data r errs).2.1, e.fieldAffected = true := by
  induction data generalizing r errs with
  | nil => exact h
  | cons kv rest ih =>
    obtain ⟨key, value⟩ := kv
    cases hr : r.find? (fun g => g.name == key) with
    | none =>
      have e1 : mapToStructLoop ((key, value) :: rest) r errs =
          mapToStructLoop rest r errs := by
        simp [mapToStructLoop, hr]
      rw [e1]
      exact ih r errs h
    | some f =>
      by_cases hcs : f.canSet = true
      · by_cases hku : f.kind = FieldKind.kUnsupported
        · have e1 : mapToStructLoop ((key, value) :: rest) r errs =
              (r, errs, some "unsupported field type") := by
            simp [mapToStructLoop, hr, hcs, hku]
          rw [e1]
          exact h
        · cases hcv : convKind f.kind value with
          | error e =>
            have e1 : mapToStructLoop ((key, value) :: rest) r errs =
                mapToStructLoop rest r (errs ++ [⟨key, e, true⟩]) := by
              simp [mapToStructLoop, hr, hcs, hku, hcv]
            rw [e1]
            refine ih r (errs ++ [⟨key, e, true⟩]) ?_
            intro x hx
            rcases List.mem_append.mp hx with hx1 | hx2
            · exact h x hx1
            · simp at hx2
              rw [hx2]
          | ok cv =>
            have e1 : mapToStructLoop ((key, value) :: rest) r errs =
                mapToStructLoop rest (setField r key cv) errs := by
              simp [mapToStructLoop, hr, hcs, hku, hcv]
            rw [e1]
            exact ih (setField r key cv) errs h
      · have e1 : mapToStructLoop ((key, value) :: rest) r errs =
            mapToStructLoop rest r errs := by
          simp [mapToStructLoop, hr, hcs]
        rw [e1]
        exact ih r errs h

/-- C3 counterexample: a failed Year conversion yields a FieldError whose
IsFieldAffected is true while the destination field was not changed,
refuting that fieldAffected reports whether the field was written (which
would be false). -/
theorem fieldAffected_false_counterexample :
    (MapToStruct [("Year", GValue.vStr "A")] carRecord).1 = carRecord ∧
    (MapToStruct [("Year", GValue.vStr "A")] carRecord).2 =
      some (GoErr.agg
        [⟨"Year", "strconv.Atoi: parsing \"A\": invalid syntax", true⟩]) ∧
    FieldError.IsFieldAffected
      ⟨"Year", "strconv.Atoi: parsing \"A\": invalid syntax", true⟩ = true :=
  ⟨rfl, rfl, rfl⟩

/-- C3 amended: every FieldError in an aggregate returned by MapToStruct has
fieldAffected set to true (IsFieldAffected reports true), even though the
failed conversion left the field unwritten. -/
theorem fieldAffected_always_true (data : List (String × GValue)) (r : Record)
    (l : List FieldError) (h : (MapToStruct data r).2 = some (GoErr.agg l)) :
    ∀ e ∈ l, e.IsFieldAffected = true := by
  have hl := mapToStructLoop_affected data r []
    (by intro e he; simp at he)
  unfold MapToStruct at h
  rcases hm : mapToStructLoop data r [] with ⟨r2, errs2, s⟩
  rw [hm] at h hl
  cases s with
  | some msg => simp at h
  | none =>
    cases errs2 with
    | nil => simp at h
    | cons a es =>
      simp only [Option.some.injEq, GoErr.agg.injEq] at h
      intro e he
      rw [← h] at he
      exact hl e he

/-- Witness for the amended C3 at the failing Year field. -/
theorem fieldAffected_always_true_witness :
    (MapToStruct [("Year", GValue.vStr "A")] carRecord).2 =
      some (GoErr.agg
        [⟨"Year", "strconv.Atoi: parsing \"A\": invalid syntax", true⟩]) ∧
    ∀ e ∈ [(⟨"Year", "strconv.Atoi: parsing \"A\": invalid syntax", true⟩ :
        FieldError)], e.IsFieldAffected = true :=
  ⟨rfl, fieldAffected_always_true [("Year", GValue.vStr "A")] carRecord
    [⟨"Year", "strconv.Atoi: parsing \"A\": invalid syntax", true⟩] rfl⟩

/-- C4: ConvertBool succeeds exactly on a native boolean value, returning it
unchanged; every other input shape fails with a conversion error naming the
value. -/
theorem convertBool_native_only (v : GValue) :
    (∀ b, v = GValue.vBool b → ConvertBool v = Except.ok b) ∧
    ((∀ b, v ≠ GValue.vBool b) →
      ConvertBool v =
        Except.error ("cannot convert value: " ++ sprintv v ++ " to bool")) := by
  constructor
  · rintro b rfl
    rfl
  · intro h
    cases v with
    | vBool b => exact absurd rfl (h b)
    | vNull => rfl
    | vInt n => rfl
    | vFloat q => rfl
    | vStr s => rfl
    | vList l => rfl
    | vMap m => rfl

/-- Witness for C4: the text true and the integer 1 fail, the native boolean
passes through. -/
theorem convertBool_native_only_witness :
    ConvertBool (GValue.vStr "true") =
      Except.error
        ("cannot convert value: " ++ sprintv (GValue.vStr "true") ++ " to bool") ∧
    ConvertBool (GValue.vInt 1) =
      Except.error
        ("cannot convert value: " ++ sprintv (GValue.vInt 1) ++ " to bool") ∧
    ConvertBool (GValue.vBool true) = Except.ok true :=
  ⟨(convertBool_native_only (GValue.vStr "true")).2 (fun _b h => GValue.noConfusion h),
   (convertBool_native_only (GValue.vInt 1)).2 (fun _b h => GValue.noConfusion h),
   (convertBool_native_only (GValue.vBool true)).1 true rfl⟩

/-- Value and digit-class of the ten decimal digit characters. -/
theorem digitChar_facts (d : Nat) (h : d < 10) :
    digitVal (Nat.digitChar d) = d ∧ isDigitCh (Nat.digitChar d) = true := by
  have hall : ∀ x : Fin 10,
      digitVal (Nat.digitChar x.val) = x.val ∧
        isDigitCh (Nat.digitChar x.val) = true := by decide
  exact hall ⟨d, h⟩

/-- Appending one digit multiplies the accumulated value by ten. -/
theorem digitsToNat_append_digit (cs : List Char) (c : Char) :
    digitsToNat (cs ++ [c]) = digitsToNat cs * 10 + digitVal c := by
  simp [digitsToNat, List.foldl_append]

/-- Digits produced with enough fuel: decimal digits only, value `n`,
nonempty when `n` is nonzero. -/
theorem natDigitsAux_spec (fuel n : Nat) (h : n ≤ fuel) :
    (natDigitsAux fuel n).all isDigitCh = true ∧
    digitsToNat (natDigitsAux fuel n) = n ∧
    (n ≠ 0 → natDigitsAux fuel n ≠ []) := by
  induction fuel generalizing n with
  | zero =>
    have hn : n = 0 := Nat.le_zero.mp h
    subst hn
    exact ⟨rfl, rfl, fun hn => absurd rfl hn⟩
  | succ fuel ih =>
    cases n with
    | zero => exact ⟨rfl, rfl, fun hn => absurd rfl hn⟩
    | succ m =>
      have hrec : (m + 1) / 10 ≤ fuel := by
        have hlt : (m + 1) / 10 < m + 1 := Nat.div_lt_self (Nat.succ_pos m) (by decide)
        omega
      obtain ⟨ha, hd, _⟩ := ih ((m + 1) / 10) hrec
      have hdig : (m + 1) % 10 < 10 := Nat.mod_lt _ (by decide)
      obtain ⟨hv, hc⟩ := digitChar_facts _ hdig
      refine ⟨?_, ?_, ?_⟩
      · simp only [natDigitsAux, List.all_append, ha, List.all_cons, List.all_nil, hc]
        rfl
      · show digitsToNat
          (natDigitsAux fuel ((m + 1) / 10) ++ [Nat.digitChar ((m + 1) % 10)]) = m + 1
        rw [digitsToNat_append_digit, hd, hv]
        have := Nat.div_add_mod (m + 1) 10
        omega
      · intro _
        simp [natDigitsAux]

/-- Decimal renderings of naturals in the int range parse back with Atoi. -/
theorem parseAtoi_natStr (m : Nat) (h : m ≤ 2 ^ 63 - 1) :
    parseAtoi (natStr m) = Except.ok (m : Int) := by
  by_cases h0 : m = 0
  · subst h0
    rfl
  · obtain ⟨ha, hd, hne⟩ := natDigitsAux_spec m m le_rfl
    have hds := hne h0
    unfold natStr
    rw [if_neg h0]
    rcases hcs : natDigitsAux m m with _ | ⟨c, cs2⟩
    · exact absurd hcs hds
    · rw [hcs] at ha hd
      rw [List.all_cons, Bool.and_eq_true] at ha
      have hcdig : isDigitCh c = true := ha.1
      have hcp : ¬ c = '+' := by
        intro hceq
        rw [hceq] at hcdig
        exact absurd hcdig (by decide)
      have hcm : ¬ c = '-' := by
        intro hceq
        rw [hceq] at hcdig
        exact absurd hcdig (by decide)
      have hsp : splitSign (c :: cs2) = (false, c :: cs2) := by
        simp only [splitSign]
        rw [if_neg hcp, if_neg hcm]
      have hall : (c :: cs2).all isDigitCh = true := by
        rw [List.all_cons, Bool.and_eq_true]
        exact ha
      simp only [parseAtoi]
      rw [show (String.mk (c :: cs2)).toList = c :: cs2 from rfl]
      rw [hsp]
      simp only
      rw [if_neg (by
        rintro (habs | habs)
        · exact List.noConfusion habs
        · exact habs hall)]
      rw [if_neg (by decide)]
      rw [hd, if_pos h]

/-- Decimal renderings from itoa of 64-bit-range ints parse back with
Atoi. -/
theorem parseAtoi_itoa (n : Int) (h1 : -(2 ^ 63) ≤ n) (h2 : n ≤ 2 ^ 63 - 1) :
    parseAtoi (itoa n) = Except.ok n := by
  unfold itoa
  split
  · next hneg =>
    have hm : n.natAbs ≠ 0 := by omega
    have hble : n.natAbs ≤ 2 ^ 63 := by omega
    obtain ⟨ha, hd, hne⟩ := natDigitsAux_spec n.natAbs n.natAbs le_rfl
    have hds := hne hm
    have hstr : "-" ++ natStr n.natAbs =
        String.mk ('-' :: natDigitsAux n.natAbs n.natAbs) := by
      unfold natStr
      rw [if_neg hm]
      rfl
    rw [hstr]
    have hsp : splitSign ('-' :: natDigitsAux n.natAbs n.natAbs) =
        (true, natDigitsAux n.natAbs n.natAbs) := by
      simp only [splitSign]
      rw [if_neg (by decide)]
      simp
    simp only [parseAtoi]
    rw [show (String.mk ('-' :: natDigitsAux n.natAbs n.natAbs)).toList =
        '-' :: natDigitsAux n.natAbs n.natAbs from rfl]
    rw [hsp]
    simp only
    rw [if_neg (by
      rintro (habs | habs)
      · exact hds habs
      · exact habs ha)]
    rw [if_pos trivial, hd, if_pos hble]
    have hval : -((n.natAbs : Nat) : Int) = n := by omega
    rw [hval]
  · next hneg =>
    have hnn : (0 : Int) ≤ n := by omega
    have hcast : ((n.natAbs : Nat) : Int) = n := by omega
    rw [← hcast]
    exact parseAtoi_natStr n.natAbs (by omega)

/-- Go `int(float64)` truncation toward zero: the T-division of the
numerator by the denominator is the floor for nonnegative values and the
ceiling for negative ones. -/
theorem tdiv_trunc (q : ℚ) : q.num.tdiv q.den = if 0 ≤ q then ⌊q⌋ else ⌈q⌉ := by
  split
  · next h =>
    rw [Rat.floor_def]
    exact Int.tdiv_eq_ediv (Rat.num_nonneg.mpr h) (Int.ofNat_nonneg q.den)
  · next h =>
    push_neg at h
    have hn : q.num < 0 := Rat.num_neg.mpr h
    have h2 : (0 : Int) ≤ -q.num := by omega
    have hceil : ⌈q⌉ = -⌊-q⌋ := by rw [Int.floor_neg]; ring
    rw [hceil, Rat.floor_def, Rat.num_neg_eq_neg_num, Rat.den_neg_eq_den]
    have h3 := Int.tdiv_eq_ediv h2 (Int.ofNat_nonneg q.den)
    have h4 := Int.neg_tdiv q.num (q.den : Int)
    omega

/-- C5: ConvertInt parses text as a base-10 integer (2020 parses, the letter
A fails) and truncates float input toward zero without failure; ConvertString
renders ints as plain decimal and floats in minimal no-trailing-zero decimal
form (100000.50 renders as 100000.5); and the decimal rendering of any
in-range int parses back to the same int. -/
theorem convert_numeric_text_coercion (q : ℚ) :
    ConvertInt (GValue.vStr "2020") = Except.ok 2020 ∧
    ConvertInt (GValue.vStr "A") =
      Except.error "strconv.Atoi: parsing \"A\": invalid syntax" ∧
    ConvertInt (GValue.vFloat q) = Except.ok (if 0 ≤ q then ⌊q⌋ else ⌈q⌉) ∧
    ConvertString (GValue.vInt 2020) = Except.ok "2020" ∧
    ConvertString (GValue.vFloat (100000.5 : ℚ)) = Except.ok "100000.5" ∧
    (∀ (n : Int) (s : String), -(2 ^ 63) ≤ n → n ≤ 2 ^ 63 - 1 →
      ConvertString (GValue.vInt n) = Except.ok s →
      ConvertInt (GValue.vStr s) = Except.ok n) := by
  refine ⟨rfl, rfl, ?_, rfl, ?_, ?_⟩
  · show Except.ok (q.num.tdiv q.den) = _
    rw [tdiv_trunc]
  · rw [show (100000.5 : ℚ) = Rat.divInt 200001 2 from by norm_num [Rat.divInt]]
    rfl
  · intro n s h1 h2 hs
    have hsi : Except.ok (itoa n) = Except.ok s := hs
    have hseq : s = itoa n := (Except.ok.inj hsi).symm
    subst hseq
    exact parseAtoi_itoa n h1 h2

/-- Witness for C5: the in-range round trip instantiated at 2020. -/
theorem convert_numeric_text_coercion_witness :
    (-(2 ^ 63) ≤ (2020 : Int)) ∧ ((2020 : Int) ≤ 2 ^ 63 - 1) ∧
    ConvertString (GValue.vInt 2020) = Except.ok (itoa 2020) ∧
    ConvertInt (GValue.vStr (itoa 2020)) = Except.ok 2020 :=
  ⟨by decide, by decide, rfl,
   (convert_numeric_text_coercion 0).2.2.2.2.2 2020 (itoa 2020)
     (by decide) (by decide) rfl⟩

/-- First failing item aborts the slice loop with exactly its error. -/
theorem slLoop_error (D : Decoder) (z : Record) (l1 : List GValue) (x : GValue)
    (l2 : List GValue) (e : GoErr)
    (h1 : ∀ it ∈ l1, (unmarshalItem D it z).2 = none)
    (hx : (unmarshalItem D x z).2 = some e) :
    slLoop D z (l1 ++ x :: l2) = Except.error e := by
  induction l1 with
  | nil =>
    rcases hu : unmarshalItem D x z with ⟨r2, s⟩
    rw [hu] at hx
    simp only at hx
    subst hx
    simp [slLoop, hu]
  | cons it rest ih =>
    have hit : (unmarshalItem D it z).2 = none := h1 it (by simp)
    have hrest : ∀ y ∈ rest, (unmarshalItem D y z).2 = none :=
      fun y hy => h1 y (by simp [hy])
    rcases hu : unmarshalItem D it z with ⟨r2, s⟩
    rw [hu] at hit
    simp only at hit
    subst hit
    simp [slLoop, hu, ih hrest, Except.map]

/-- All-success slice loop collects the converted records in input order. -/
theorem slLoop_ok (D : Decoder) (z : Record) (items : List GValue)
    (h : ∀ it ∈ items, (unmarshalItem D it z).2 = none) :
    slLoop D z items =
      Except.ok (items.map (fun it => (unmarshalItem D it z).1)) := by
  induction items with
  | nil => rfl
  | cons it rest ih =>
    have hit : (unmarshalItem D it z).2 = none := h it (by simp)
    have hrest : ∀ y ∈ rest, (unmarshalItem D y z).2 = none :=
      fun y hy => h y (by simp [hy])
    rcases hu : unmarshalItem D it z with ⟨r2, s⟩
    rw [hu] at hit
    simp only at hit
    subst hit
    simp [slLoop, hu, ih hrest, Except.map]

/-- C2: in both slice materializers, the first item whose recursive
Unmarshal fails aborts the whole materialization: that single error is
returned (no aggregation across items) and the destination slice keeps its
prior contents; no partial collection is committed. -/
theorem unmarshal_collection_abort_on_first_error (D : Decoder) (z : Record)
    (prior : List Record) :
    (∀ (l1 : List GValue) (x : GValue) (l2 : List GValue) (e : GoErr),
        (∀ it ∈ l1, (unmarshalItem D it z).2 = none) →
        (unmarshalItem D x z).2 = some e →
        UnmarshalSlice D (l1 ++ x :: l2) (Dest.toSlice z prior) =
          (Dest.toSlice z prior, some e)) ∧
    (∀ (m1 : List (List (String × GValue))) (mm : List (String × GValue))
        (m2 : List (List (String × GValue))) (e : GoErr),
        (∀ x ∈ m1, (MapToStruct x z).2 = none) →
        (MapToStruct mm z).2 = some e →
        UnmarshalSliceOfMaps D (m1 ++ mm :: m2) (Dest.toSlice z prior) =
          (Dest.toSlice z prior, some e)) := by
  constructor
  · intro l1 x l2 e h1 hx
    have hsl := slLoop_error D z l1 x l2 e h1 hx
    simp [UnmarshalSlice, hsl]
  · intro m1 mm m2 e h1 hx
    have h1v : ∀ it ∈ m1.map GValue.vMap, (unmarshalItem D it z).2 = none := by
      intro it hit
      rcases List.mem_map.mp hit with ⟨x, hx2, rfl⟩
      exact h1 x hx2
    have hxv : (unmarshalItem D (GValue.vMap mm) z).2 = some e := hx
    have hsl := slLoop_error D z (m1.map GValue.vMap) (GValue.vMap mm)
      (m2.map GValue.vMap) e h1v hxv
    have hmap : (m1 ++ mm :: m2).map GValue.vMap =
        m1.map GValue.vMap ++ GValue.vMap mm :: m2.map GValue.vMap := by simp
    simp [UnmarshalSliceOfMaps, hmap, hsl]

/-- C9: on success both materializers append the converted records, in input
order, after the existing contents of the destination slice. -/
theorem unmarshal_collection_appends (D : Decoder) (z : Record)
    (prior : List Record) :
    (∀ items : List GValue, (∀ it ∈ items, (unmarshalItem D it z).2 = none) →
        UnmarshalSlice D items (Dest.toSlice z prior) =
          (Dest.toSlice z
            (prior ++ items.map (fun it => (unmarshalItem D it z).1)), none)) ∧
    (∀ maps : List (List (String × GValue)),
        (∀ mm ∈ maps, (MapToStruct mm z).2 = none) →
        UnmarshalSliceOfMaps D maps (Dest.toSlice z prior) =
          (Dest.toSlice z
            (prior ++ maps.map (fun mm => (MapToStruct mm z).1)), none)) := by
  constructor
  · intro items h
    have hsl := slLoop_ok D z items h
    simp [UnmarshalSlice, hsl]
  · intro maps h
    have hv : ∀ it ∈ maps.map GValue.vMap, (unmarshalItem D it z).2 = none := by
      intro it hit
      rcases List.mem_map.mp hit with ⟨x, hx2, rfl⟩
      exact h x hx2
    have hsl := slLoop_ok D z (maps.map GValue.vMap) hv
    simp only [UnmarshalSliceOfMaps, hsl, List.map_map]
    rfl

/-- C6: UnmarshalBytes first tries the single-mapping decode; on its
failure it decodes a list of mappings and recurses through the dispatcher on
that list; when both decodes fail the surfaced error is the second (list)
decode error, not the first. -/
theorem unmarshalBytes_decode_fallback (D : Decoder) (bs : String) (d : Dest) :
    (∀ raw, D.decMap bs = Except.ok raw →
        Unmarshal D (UInput.bytes bs) d = mapToStructDest raw d) ∧
    (∀ e1 lst, D.decMap bs = Except.error e1 → D.decList bs = Except.ok lst →
        Unmarshal D (UInput.bytes bs) d =
          UnmarshalSlice D (lst.map GValue.vMap) d) ∧
    (∀ e1 e2, D.decMap bs = Except.error e1 → D.decList bs = Except.error e2 →
        Unmarshal D (UInput.bytes bs) d = (d, some (GoErr.decodeErr e2))) := by
  refine ⟨?_, ?_, ?_⟩
  · intro raw h
    simp [Unmarshal, UnmarshalBytes, h]
  · intro e1 lst h1 h2
    simp [Unmarshal, UnmarshalBytes, h1, h2]
  · intro e1 e2 h1 h2
    simp [Unmarshal, UnmarshalBytes, h1, h2]

/-- Decoder whose two decode attempts fail with distinct errors. -/
def dFail : Decoder :=
  ⟨fun _ => Except.error "map decode failed",
   fun _ => Except.error "list decode failed"⟩

/-- Witness for C6 on the always-failing decoder: the surfaced error is the
list decode error. -/
theorem unmarshalBytes_decode_fallback_witness :
    dFail.decMap "x" = Except.error "map decode failed" ∧
    dFail.decList "x" = Except.error "list decode failed" ∧
    Unmarshal dFail (UInput.bytes "x") (Dest.toStruct carRecord) =
      (Dest.toStruct carRecord, some (GoErr.decodeErr "list decode failed")) :=
  ⟨rfl, rfl,
   (unmarshalBytes_decode_fallback dFail "x" (Dest.toStruct carRecord)).2.2
     "map decode failed" "list decode failed" rfl rfl⟩

/-- Well-typed single-field map for collection witnesses. -/
def okMap : List (String × GValue) := [("Brand", GValue.vStr "Toyota")]

/-- Map whose Year value fails integer conversion. -/
def badMap : List (String × GValue) := [("Year", GValue.vStr "A")]

/-- Witness for C2: the second of three items fails; the empty prior slice
survives and the single field error of that item is returned. -/
theorem unmarshal_collection_abort_witness :
    (∀ it ∈ [GValue.vMap okMap], (unmarshalItem dFail it carRecord).2 = none) ∧
    (unmarshalItem dFail (GValue.vMap badMap) carRecord).2 =
      some (GoErr.agg
        [⟨"Year", "strconv.Atoi: parsing \"A\": invalid syntax", true⟩]) ∧
    UnmarshalSlice dFail
        ([GValue.vMap okMap] ++ GValue.vMap badMap :: [GValue.vMap okMap])
        (Dest.toSlice carRecord []) =
      (Dest.toSlice carRecord [],
       some (GoErr.agg
         [⟨"Year", "strconv.Atoi: parsing \"A\": invalid syntax", true⟩])) :=
  ⟨by decide, by decide,
   (unmarshal_collection_abort_on_first_error dFail carRecord []).1
     [GValue.vMap okMap] (GValue.vMap badMap) [GValue.vMap okMap]
     (GoErr.agg [⟨"Year", "strconv.Atoi: parsing \"A\": invalid syntax", true⟩])
     (by decide) (by decide)⟩

/-- Witness for C9: one converted record is appended after an existing
element of the destination slice. -/
theorem unmarshal_collection_appends_witness :
    (∀ it ∈ [GValue.vMap okMap], (unmarshalItem dFail it carRecord).2 = none) ∧
    UnmarshalSlice dFail [GValue.vMap okMap]
        (Dest.toSlice carRecord [carRecord]) =
      (Dest.toSlice carRecord
        ([carRecord] ++ [GValue.vMap okMap].map
          (fun it => (unmarshalItem dFail it carRecord).1)), none) :=
  ⟨by decide,
   (unmarshal_collection_appends dFail carRecord [carRecord]).1
     [GValue.vMap okMap] (by decide)⟩

end Transform
